import Mathlib

/-!
Shallow embedding of the data-transfer classes in src/py/otter/dbattr.py:
the Source record with its alias-resolution function, the RA coordinate
attribute, the Name attribute, and the Photometry collection attribute.

Python dictionaries are modelled as association lists looked up by string
key; Python floats as exact rationals; fallible Python code (uncaught
KeyError, TypeError, AttributeError, and the explicit required-field
Exception in Photometry) as Except values.
-/

namespace Otter

/-- Error taxonomy of the module: the explicit required-field Exception in
Photometry, an uncaught KeyError on a dict lookup, a TypeError or ValueError
from a numeric conversion, and an AttributeError from calling a missing
attribute (e.g. append on a float). -/
inductive PyErr where
  | missingFields
  | keyNotFound
  | typeError
  | attributeError
deriving DecidableEq, Repr

/-- Bibliographic source: Source.__init__ reads the keys "name", "bibcode"
and "alias" of the input dict into attributes. -/
structure Source where
  name : String
  bibcode : String
  aliasStr : String
deriving DecidableEq, Repr

/-- Python dict lookup d[k] on a string-keyed association list, returning
none when the key is absent (a KeyError site in Python). -/
def dictFind {α : Type} (m : List (String × α)) (k : String) : Option α :=
  (m.find? (fun p => p.1 == k)).map (fun p => p.2)

instance {ε α : Type} [DecidableEq ε] [DecidableEq α] : DecidableEq (Except ε α) := fun a b =>
  match a, b with
  | .ok x, .ok y => if h : x = y then .isTrue (by rw [h]) else .isFalse (by simp [h])
  | .error x, .error y => if h : x = y then .isTrue (by rw [h]) else .isFalse (by simp [h])
  | .ok _, .error _ => .isFalse (by simp)
  | .error _, .ok _ => .isFalse (by simp)

/-- The Python membership test "c in s" on a string, over its character
list (structural, so that concrete instances evaluate). -/
def strContains (s : String) (c : Char) : Bool := s.data.contains c

/-- Python str.split with a one-character separator, on character lists:
split("") = [""], and split keeps empty parts. -/
def splitCharList (c : Char) : List Char → List (List Char)
  | [] => [[]]
  | x :: xs =>
    let r := splitCharList c xs
    if x == c then [] :: r
    else (x :: r.headD []) :: r.tail

/-- Python str.split(sep) for a one-character separator, on strings. -/
def pySplit (s : String) (c : Char) : List String :=
  (splitCharList c s.data).map String.mk

/-- The sourcemap argument: a mapping from alias string to Source. -/
abbrev SMap := List (String × Source)

/-- The three result shapes of Source.aliasToSource: a single Source, a
list of Sources (comma case), or the literal string sentinel "computed"
(hyphen case). -/
inductive Resolved where
  | single (s : Source)
  | multi (l : List Source)
  | computed
deriving DecidableEq, Repr

/-- Source.aliasToSource: if the alias contains a comma, split on commas
and look each part up in the sourcemap (KeyError if any part is absent);
else if it contains a hyphen, return the sentinel "computed"; else a
single sourcemap lookup (KeyError if absent). -/
def aliasToSource (al : String) (sourcemap : SMap) : Except PyErr Resolved :=
  if strContains al ',' then
    match (pySplit al ',').mapM (fun a => dictFind sourcemap a) with
    | some l => .ok (.multi l)
    | none => .error .keyNotFound
  else if strContains al '-' then
    .ok .computed
  else
    match dictFind sourcemap al with
    | some s => .ok (.single s)
    | none => .error .keyNotFound

/-- Source.__init__ on an input dict: reads "name", "bibcode", "alias";
a missing key is an uncaught KeyError. -/
def mkSource (sourceDict : List (String × String)) : Except PyErr Source :=
  match dictFind sourceDict "name", dictFind sourceDict "bibcode",
        dictFind sourceDict "alias" with
  | some n, some b, some a => .ok ⟨n, b, a⟩
  | _, _, _ => .error .keyNotFound

/-- Source.tojson: emits the dict with keys "name", "bibcode", "alias". -/
def Source.tojson (s : Source) : List (String × String) :=
  [("name", s.name), ("bibcode", s.bibcode), ("alias", s.aliasStr)]

/-- Sample sources used to instantiate witnesses. -/
def srcA : Source := ⟨"Author A", "2020ApJ...1A", "a"⟩

def srcB : Source := ⟨"Author B", "2021ApJ...2B", "b"⟩

/-- The RA object: RA.__init__ stores the parsed angle in value, its
canonical hour-angle string in valueString, and the resolved source (None
when the "source" key is absent or no sourcemap was supplied). The angle
type and the astropy parsing and formatting functions are external-library
code, taken as parameters of the embedding. -/
structure RAObj (A : Type) where
  value : A
  valueString : String
  source : Option Resolved
deriving DecidableEq

/-- RA.__init__: ra["value"] (KeyError if the key is absent) is parsed by
coord.Angle in hour-angle units (a parse failure is a conversion error);
if "source" is a key of ra AND a sourcemap was supplied, the source alias
is resolved with Source.aliasToSource, else source is None. -/
def RA.init {A : Type} (angleHour : String → Option A) (angleToString : A → String)
    (ra : List (String × String)) (sourcemap : Option SMap) : Except PyErr (RAObj A) :=
  match dictFind ra "value" with
  | none => .error .keyNotFound
  | some vs =>
    match angleHour vs with
    | none => .error .typeError
    | some v =>
      match dictFind ra "source", sourcemap with
      | some al, some sm =>
        match aliasToSource al sm with
        | .ok r => .ok ⟨v, angleToString v, some r⟩
        | .error e => .error e
      | _, _ => .ok ⟨v, angleToString v, none⟩

/-- RA.tojson: a list source joins the aliases with commas and drops the
trailing comma; a None source gives the empty alias; a single Source gives
its alias; the "computed" sentinel has no alias attribute, an
AttributeError. An empty joined alias emits only the "value" key. -/
def RAObj.tojson {A : Type} (r : RAObj A) : Except PyErr (List (String × String)) :=
  match r.source with
  | some (.multi l) =>
    let al := (String.join (l.map (fun s => s.aliasStr ++ ","))).dropRight 1
    .ok (if al.length = 0 then [("value", r.valueString)]
         else [("value", r.valueString), ("source", al)])
  | none => .ok [("value", r.valueString)]
  | some (.single s) =>
    .ok (if s.aliasStr.length = 0 then [("value", r.valueString)]
         else [("value", r.valueString), ("source", s.aliasStr)])
  | some .computed => .error .attributeError

/-- The Name object: Name.__init__ sets the name attribute always, and
the aliases attribute only when the aliases argument is not None; an
Option field none models the attribute being absent on the object. -/
structure NameObj where
  name : String
  aliases : Option (List String)
deriving DecidableEq, Repr

/-- Name.__init__ with its optional aliases argument (default None). -/
def Name.init (name : String) (aliases : Option (List String)) : NameObj :=
  ⟨name, aliases⟩

/-- The values attribute access on a Name object can produce. -/
inductive AttrVal where
  | str (s : String)
  | strList (l : List String)
deriving DecidableEq, Repr

/-- Attribute access on a Name object, as used by DBAttr.__getitem__
(which delegates to getattr): "name" always succeeds; "aliases" succeeds
only when the attribute was set; anything else is an AttributeError,
modelled as none. -/
def NameObj.getattrib (n : NameObj) (k : String) : Option AttrVal :=
  if k == "name" then some (.str n.name)
  else if k == "aliases" then n.aliases.map .strList
  else none

/-- DBAttr.__getitem__ returns getattr(self, key). -/
def NameObj.getitem (n : NameObj) (k : String) : Option AttrVal :=
  n.getattrib k

/-- A Python value appearing in a photometry record: a numeric scalar, a
string, a list, a boolean, or None. -/
inductive PyVal where
  | num (q : ℚ)
  | str (s : String)
  | vlist (l : List PyVal)
  | boolean (b : Bool)
  | null

/-- A photometry record: a Python dict with heterogeneous values. -/
abbrev Record := List (String × PyVal)

/-- Models the Python float(x) conversion (and the elementwise
astype(float) of a numpy array) on numeric and boolean values; floats are
exact rationals here, and parsing of numeric strings is not modelled. -/
def pyFloat : PyVal → Option ℚ
  | .num q => some q
  | .boolean b => some (if b then 1 else 0)
  | _ => none

/-- np.mean of a list of floats: the sum divided by the length. numpy
yields NaN on the empty list; here the junk value 0, so statements about
the mean assume a nonempty list. -/
def npMean (l : List ℚ) : ℚ := l.sum / l.length

/-- The shape of Photometry's time attribute: initialized to a list that
scalar times are appended to, but overwritten by a bare scalar (the numpy
mean) whenever a record gives time as a list. -/
inductive TimeField where
  | tlist (l : List ℚ)
  | tscalar (q : ℚ)
deriving DecidableEq, Repr

/-- The mutable attribute state Photometry.__init__ builds up over the
records: the parallel lists, and the time field that can degenerate to a
scalar. -/
structure PhotState where
  time : TimeField
  luminosity : List (Option ℚ)
  flux : List (Option ℚ)
  mag : List (Option ℚ)
  wavelength : List (Option PyVal)
  source : List Resolved
  upperlimit : List Bool

/-- The attribute state right after the empty-list initializations. -/
def initState : PhotState := ⟨.tlist [], [], [], [], [], [], []⟩

/-- Whether the dict has the key. -/
def hasKey (d : Record) (k : String) : Bool := (dictFind d k).isSome

/-- reqKeys = {time, luminosity, source} is a subset of the record keys. -/
def requiredOK (d : Record) : Bool :=
  hasKey d "time" && hasKey d "luminosity" && hasKey d "source"

/-- The time handling of one record: a list value is converted elementwise
to float and the time field is ASSIGNED the numpy mean (a scalar,
overwriting the list); any other value is converted to float and appended,
which is an AttributeError when a previous record already overwrote the
time field with a scalar (floats have no append). -/
def stepTime (st : PhotState) (d : Record) : Except PyErr PhotState :=
  match dictFind d "time" with
  | some (.vlist l) =>
    match l.mapM pyFloat with
    | some qs => .ok { st with time := .tscalar (npMean qs) }
    | none => .error .typeError
  | some v =>
    match st.time with
    | .tlist tl =>
      match pyFloat v with
      | some q => .ok { st with time := .tlist (tl ++ [q]) }
      | none => .error .typeError
    | .tscalar _ => .error .attributeError
  | none => .error .keyNotFound

/-- The source handling of one record: resolve d["source"] with
Source.aliasToSource and append the result. The str() coercion is
modelled for string aliases, the only ones the claims exercise. -/
def stepSource (sourcemap : SMap) (st : PhotState) (d : Record) : Except PyErr PhotState :=
  match dictFind d "source" with
  | some (.str a) =>
    match aliasToSource a sourcemap with
    | .ok r => .ok { st with source := st.source ++ [r] }
    | .error e => .error e
  | some _ => .error .typeError
  | none => .error .keyNotFound

/-- The luminosity handling of one record: parsed float appended when the
key is present, else a None placeholder appended. -/
def stepLum (st : PhotState) (d : Record) : Except PyErr PhotState :=
  match dictFind d "luminosity" with
  | some v =>
    match pyFloat v with
    | some q => .ok { st with luminosity := st.luminosity ++ [some q] }
    | none => .error .typeError
  | none => .ok { st with luminosity := st.luminosity ++ [none] }

/-- The flux handling of one record: parsed float appended to the flux
list when the key is present; when absent, the None placeholder is
appended to the LUMINOSITY list, exactly as the source does. -/
def stepFlux (st : PhotState) (d : Record) : Except PyErr PhotState :=
  match dictFind d "flux" with
  | some v =>
    match pyFloat v with
    | some q => .ok { st with flux := st.flux ++ [some q] }
    | none => .error .typeError
  | none => .ok { st with luminosity := st.luminosity ++ [none] }

/-- The magnitude handling of one record: parsed float appended to mag
when present, else a None placeholder. -/
def stepMag (st : PhotState) (d : Record) : Except PyErr PhotState :=
  match dictFind d "magnitude" with
  | some v =>
    match pyFloat v with
    | some q => .ok { st with mag := st.mag ++ [some q] }
    | none => .error .typeError
  | none => .ok { st with mag := st.mag ++ [none] }

/-- The wavelength handling of one record: the value appended verbatim
when present, else a None placeholder. -/
def stepWav (st : PhotState) (d : Record) : Except PyErr PhotState :=
  match dictFind d "wavelength" with
  | some v => .ok { st with wavelength := st.wavelength ++ [some v] }
  | none => .ok { st with wavelength := st.wavelength ++ [none] }

/-- The upperlimit handling of one record: True appended exactly when the
key is present (the value is ignored). -/
def stepUpper (st : PhotState) (d : Record) : Except PyErr PhotState :=
  .ok { st with upperlimit := st.upperlimit ++ [hasKey d "upperlimit"] }

/-- The per-field handling after the time assignment, in source order:
source, luminosity, flux, magnitude, wavelength, upperlimit. -/
def stepRest (sourcemap : SMap) (st : PhotState) (d : Record) : Except PyErr PhotState :=
  stepSource sourcemap st d >>= fun s1 =>
  stepLum s1 d >>= fun s2 =>
  stepFlux s2 d >>= fun s3 =>
  stepMag s3 d >>= fun s4 =>
  stepWav s4 d >>= fun s5 =>
  stepUpper s5 d

/-- The body of the per-record loop of Photometry.__init__: the
required-keys subset check raising the missing-fields Exception, then the
time handling, then the remaining fields in source order. -/
def processRecord (sourcemap : SMap) (st : PhotState) (d : Record) : Except PyErr PhotState :=
  if requiredOK d then
    stepTime st d >>= fun s1 => stepRest sourcemap s1 d
  else
    .error .missingFields

/-- Whether a Python value is None (the "obs[key] is None" test). -/
def isNone : PyVal → Bool
  | .null => true
  | _ => false

/-- The cleaned pass-through projection of one record: None-valued fields
dropped. -/
def cleanRecord (d : Record) : Record :=
  d.filter (fun kv => !(isNone kv.2))

/-- The constructed Photometry object: the band, the accumulated
attribute state, and the cleaned raw records. -/
structure PhotometryObj where
  band : String
  st : PhotState
  json : List Record

/-- Photometry.__init__: fold the per-record loop over the input list
starting from the empty-list state, then attach the band and the cleaned
pass-through records. The sourcemap default of None is not modelled: the
claims all supply one. -/
def Photometry.init (photometry : List Record) (band : String) (sourcemap : SMap) :
    Except PyErr PhotometryObj :=
  match photometry.foldlM (fun st d => processRecord sourcemap st d) initState with
  | .ok st => .ok ⟨band, st, photometry.map cleanRecord⟩
  | .error e => .error e

/-- Whether an Except value is a success. -/
def isOkb {ε α : Type} : Except ε α → Bool
  | .ok _ => true
  | .error _ => false

/-- The record gives time as a list whose entries all convert to float. -/
def listTimeOK (d : Record) : Bool :=
  match dictFind d "time" with
  | some (.vlist l) => (l.mapM pyFloat).isSome
  | _ => false

/-- The record gives time as a non-list value that converts to float. -/
def scalarTimeOK (d : Record) : Bool :=
  match dictFind d "time" with
  | some (.vlist _) => false
  | some v => (pyFloat v).isSome
  | none => false

/-- The record is unproblematic in every field other than time: required
keys present, a string source alias that resolves, and luminosity, flux
and magnitude values that convert to float when present. -/
def restOK (sourcemap : SMap) (d : Record) : Bool :=
  requiredOK d &&
  (match dictFind d "source" with
   | some (.str a) => isOkb (aliasToSource a sourcemap)
   | _ => false) &&
  (match dictFind d "luminosity" with
   | some v => (pyFloat v).isSome
   | none => true) &&
  (match dictFind d "flux" with
   | some v => (pyFloat v).isSome
   | none => true) &&
  (match dictFind d "magnitude" with
   | some v => (pyFloat v).isSome
   | none => true)

/-! ## Helper lemmas -/

theorem except_error_bind {ε α β : Type} (e : ε) (f : α → Except ε β) :
    (Except.error e >>= f) = .error e := rfl

theorem except_ok_bind {ε α β : Type} (a : α) (f : α → Except ε β) :
    (Except.ok a >>= f) = f a := rfl

theorem exceptBind_ok {ε α β : Type} (x : Except ε α) (f : α → Except ε β) (b : β)
    (h : (x >>= f) = .ok b) : ∃ a, x = .ok a ∧ f a = .ok b := by
  cases x with
  | error e => exact Except.noConfusion h
  | ok a => exact ⟨a, rfl, h⟩

/-! ## Claim theorems for Source and aliasToSource -/

/-- C4: For every alias string containing a comma whose comma-separated
parts all resolve in the sourcemap, aliasToSource returns the ordered list
of the corresponding Source objects, in input order with duplicates
preserved; in particular aliasToSource "a,b" on a map sending "a" to Sa
and "b" to Sb yields [Sa, Sb]. -/
theorem aliasToSource_comma_ordered (al : String) (m : SMap) (l : List Source)
    (hc : strContains al ',' = true)
    (hl : (pySplit al ',').mapM (fun a => dictFind m a) = some l) :
    aliasToSource al m = .ok (.multi l) ∧
    ∀ Sa Sb : Source,
      aliasToSource "a,b" [("a", Sa), ("b", Sb)] = .ok (.multi [Sa, Sb]) := by
  constructor
  · simp only [aliasToSource, hc, if_true, hl]
  · intro Sa Sb
    rfl

/-- Witness for C4 at the concrete alias "a,b" and map a ↦ srcA, b ↦ srcB. -/
theorem aliasToSource_comma_ordered_witness :
    aliasToSource "a,b" [("a", srcA), ("b", srcB)] = .ok (.multi [srcA, srcB]) :=
  (aliasToSource_comma_ordered "a,b" [("a", srcA), ("b", srcB)] [srcA, srcB]
    (by decide) (by decide)).1

/-- C5: For every alias string with no comma but with a hyphen,
aliasToSource returns the sentinel "computed", whatever the sourcemap;
in particular on "uuid-1234" with the empty sourcemap. -/
theorem aliasToSource_hyphen_computed (al : String) (m : SMap)
    (hc : strContains al ',' = false)
    (hh : strContains al '-' = true) :
    aliasToSource al m = .ok .computed := by
  simp [aliasToSource, hc, hh]

/-- Witness for C5 at the concrete alias "uuid-1234" and empty sourcemap. -/
theorem aliasToSource_hyphen_computed_witness :
    aliasToSource "uuid-1234" [] = .ok .computed :=
  aliasToSource_hyphen_computed "uuid-1234" [] (by decide) (by decide)

/-- C6: For every alias string with neither comma nor hyphen that is not a
key of the sourcemap, aliasToSource fails with the key-not-found error. -/
theorem aliasToSource_absent_keyError (al : String) (m : SMap)
    (hc : strContains al ',' = false)
    (hh : strContains al '-' = false)
    (habs : dictFind m al = none) :
    aliasToSource al m = .error .keyNotFound := by
  simp [aliasToSource, hc, hh, habs]

/-- Witness for C6 at the concrete alias "missing" and empty sourcemap. -/
theorem aliasToSource_absent_keyError_witness :
    aliasToSource "missing" [] = .error .keyNotFound :=
  aliasToSource_absent_keyError "missing" [] (by decide) (by decide) rfl

/-- C7: For every input dict from which Source construction succeeds,
serializing with tojson and reconstructing reproduces the name, bibcode
and alias fields exactly. -/
theorem source_tojson_roundtrip (x : List (String × String)) (s : Source)
    (_h : mkSource x = .ok s) :
    mkSource (Source.tojson s) = .ok s := rfl

/-- Witness for C7 at a concrete record. -/
theorem source_tojson_roundtrip_witness :
    mkSource (Source.tojson srcA) = .ok srcA :=
  source_tojson_roundtrip
    [("name", "Author A"), ("bibcode", "2020ApJ...1A"), ("alias", "a")]
    srcA (by decide)

/-! ## Claim theorems for RA -/

/-- C8: For every RA input record with a parseable "value" angle string,
if the record has a "source" key but sourcemap is None, construction
succeeds with the source attribute None and no error, and tojson emits a
mapping with only the "value" key. -/
theorem ra_no_sourcemap_source_absent {A : Type}
    (angleHour : String → Option A) (angleToString : A → String)
    (ra : List (String × String)) (vs : String) (a : A)
    (_hsrc : (dictFind ra "source").isSome = true)
    (hv : dictFind ra "value" = some vs)
    (hp : angleHour vs = some a) :
    ∃ r : RAObj A, RA.init angleHour angleToString ra none = .ok r ∧
      r.source = none ∧
      r.tojson = .ok [("value", angleToString a)] := by
  refine ⟨⟨a, angleToString a, none⟩, ?_, rfl, rfl⟩
  simp only [RA.init, hv, hp]
  rcases hd : dictFind ra "source" with _ | al
  · rfl
  · rfl

/-- Witness for C8 at a concrete record with a "source" key and the
identity angle parser. -/
theorem ra_no_sourcemap_source_absent_witness :
    ∃ r : RAObj String,
      RA.init (fun s => some s) (fun s => s)
        [("value", "12:30:00"), ("source", "a")] none = .ok r ∧
      r.source = none ∧
      r.tojson = .ok [("value", "12:30:00")] :=
  ra_no_sourcemap_source_absent (fun s => some s) (fun s => s)
    [("value", "12:30:00"), ("source", "a")] "12:30:00" "12:30:00"
    (by decide) (by decide) rfl

/-! ## Claim theorems for Name -/

/-- C10: A Name constructed without an aliases argument has no aliases
attribute: dictionary-style access of "aliases" fails (none), while the
name attribute is set and readable. -/
theorem name_no_aliases_attr (nm : String) :
    (Name.init nm none).getitem "aliases" = none ∧
    (Name.init nm none).getattrib "aliases" = none ∧
    (Name.init nm none).getitem "name" = some (.str nm) :=
  ⟨rfl, rfl, rfl⟩

theorem stepTime_fields (st : PhotState) (d : Record) (st' : PhotState)
    (h : stepTime st d = .ok st') :
    st'.luminosity = st.luminosity ∧ st'.flux = st.flux ∧ st'.source = st.source := by
  unfold stepTime at h
  repeat' split at h
  all_goals first
    | exact Except.noConfusion h
    | (injection h with h; subst h; exact ⟨rfl, rfl, rfl⟩)

theorem stepSource_fields (sm : SMap) (st : PhotState) (d : Record) (st' : PhotState)
    (h : stepSource sm st d = .ok st') :
    st'.time = st.time ∧ st'.luminosity = st.luminosity ∧ st'.flux = st.flux := by
  unfold stepSource at h
  repeat' split at h
  all_goals first
    | exact Except.noConfusion h
    | (injection h with h; subst h; exact ⟨rfl, rfl, rfl⟩)

theorem hasKey_false_iff (d : Record) (k : String) :
    hasKey d k = false ↔ dictFind d k = none := by
  unfold hasKey
  cases dictFind d k <;> simp

theorem hasKey_true_iff (d : Record) (k : String) :
    hasKey d k = true ↔ ∃ v, dictFind d k = some v := by
  unfold hasKey
  cases dictFind d k <;> simp

theorem stepLum_fields (st : PhotState) (d : Record) (st' : PhotState)
    (h : stepLum st d = .ok st') :
    st'.time = st.time ∧ st'.flux = st.flux ∧
    (∀ v, dictFind d "luminosity" = some v →
      ∃ q, pyFloat v = some q ∧ st'.luminosity = st.luminosity ++ [some q]) ∧
    (dictFind d "luminosity" = none → st'.luminosity = st.luminosity ++ [none]) := by
  unfold stepLum at h
  cases hd : dictFind d "luminosity" with
  | none =>
    rw [hd] at h
    injection h with h
    subst h
    exact ⟨rfl, rfl, fun v hv => absurd hv (by simp [hd]), fun _ => rfl⟩
  | some v =>
    simp only [hd] at h
    cases hq : pyFloat v with
    | none =>
      simp only [hq] at h
      exact Except.noConfusion h
    | some q =>
      simp only [hq] at h
      injection h with h
      subst h
      refine ⟨rfl, rfl, fun w hw => ?_, fun hn => Option.noConfusion hn⟩
      injection hw with hw
      subst hw
      exact ⟨q, hq, rfl⟩

theorem stepFlux_fields (st : PhotState) (d : Record) (st' : PhotState)
    (h : stepFlux st d = .ok st') :
    st'.time = st.time ∧
    (∀ v, dictFind d "flux" = some v →
      ∃ q, pyFloat v = some q ∧ st'.flux = st.flux ++ [some q] ∧
        st'.luminosity = st.luminosity) ∧
    (dictFind d "flux" = none →
      st'.flux = st.flux ∧ st'.luminosity = st.luminosity ++ [none]) := by
  unfold stepFlux at h
  cases hd : dictFind d "flux" with
  | none =>
    rw [hd] at h
    injection h with h
    subst h
    exact ⟨rfl, fun v hv => absurd hv (by simp [hd]), fun _ => ⟨rfl, rfl⟩⟩
  | some v =>
    simp only [hd] at h
    cases hq : pyFloat v with
    | none =>
      simp only [hq] at h
      exact Except.noConfusion h
    | some q =>
      simp only [hq] at h
      injection h with h
      subst h
      refine ⟨rfl, fun w hw => ?_, fun hn => Option.noConfusion hn⟩
      injection hw with hw
      subst hw
      exact ⟨q, hq, rfl, rfl⟩

theorem stepMag_fields (st : PhotState) (d : Record) (st' : PhotState)
    (h : stepMag st d = .ok st') :
    st'.time = st.time ∧ st'.luminosity = st.luminosity ∧ st'.flux = st.flux := by
  unfold stepMag at h
  repeat' split at h
  all_goals first
    | exact Except.noConfusion h
    | (injection h with h; subst h; exact ⟨rfl, rfl, rfl⟩)

theorem stepWav_fields (st : PhotState) (d : Record) (st' : PhotState)
    (h : stepWav st d = .ok st') :
    st'.time = st.time ∧ st'.luminosity = st.luminosity ∧ st'.flux = st.flux := by
  unfold stepWav at h
  repeat' split at h
  all_goals first
    | exact Except.noConfusion h
    | (injection h with h; subst h; exact ⟨rfl, rfl, rfl⟩)

theorem stepUpper_ok (st : PhotState) (d : Record) :
    stepUpper st d = .ok { st with upperlimit := st.upperlimit ++ [hasKey d "upperlimit"] } := rfl

theorem stepUpper_fields (st : PhotState) (d : Record) (st' : PhotState)
    (h : stepUpper st d = .ok st') :
    st'.time = st.time ∧ st'.luminosity = st.luminosity ∧ st'.flux = st.flux := by
  unfold stepUpper at h
  injection h with h
  subst h
  exact ⟨rfl, rfl, rfl⟩

theorem stepRest_decomp (sm : SMap) (st : PhotState) (d : Record) (st' : PhotState)
    (h : stepRest sm st d = .ok st') :
    ∃ s1 s2 s3 s4 s5,
      stepSource sm st d = .ok s1 ∧ stepLum s1 d = .ok s2 ∧ stepFlux s2 d = .ok s3 ∧
      stepMag s3 d = .ok s4 ∧ stepWav s4 d = .ok s5 ∧ stepUpper s5 d = .ok st' := by
  unfold stepRest at h
  obtain ⟨s1, h1, h⟩ := exceptBind_ok _ _ _ h
  obtain ⟨s2, h2, h⟩ := exceptBind_ok _ _ _ h
  obtain ⟨s3, h3, h⟩ := exceptBind_ok _ _ _ h
  obtain ⟨s4, h4, h⟩ := exceptBind_ok _ _ _ h
  obtain ⟨s5, h5, h⟩ := exceptBind_ok _ _ _ h
  exact ⟨s1, s2, s3, s4, s5, h1, h2, h3, h4, h5, h⟩

theorem stepRest_time (sm : SMap) (st : PhotState) (d : Record) (st' : PhotState)
    (h : stepRest sm st d = .ok st') : st'.time = st.time := by
  obtain ⟨s1, s2, s3, s4, s5, h1, h2, h3, h4, h5, h6⟩ := stepRest_decomp sm st d st' h
  rw [(stepUpper_fields s5 d st' h6).1, (stepWav_fields s4 d s5 h5).1,
      (stepMag_fields s3 d s4 h4).1, (stepFlux_fields s2 d s3 h3).1,
      (stepLum_fields s1 d s2 h2).1, (stepSource_fields sm st d s1 h1).1]

theorem processRecord_decomp (sm : SMap) (st : PhotState) (d : Record) (st' : PhotState)
    (h : processRecord sm st d = .ok st') :
    requiredOK d = true ∧ ∃ s1, stepTime st d = .ok s1 ∧ stepRest sm s1 d = .ok st' := by
  unfold processRecord at h
  by_cases hr : requiredOK d = true
  · rw [if_pos hr] at h
    exact ⟨hr, exceptBind_ok _ _ _ h⟩
  · rw [if_neg hr] at h
    exact Except.noConfusion h



theorem requiredOK_parts (d : Record) (hr : requiredOK d = true) :
    hasKey d "time" = true ∧ hasKey d "luminosity" = true ∧ hasKey d "source" = true := by
  simp only [requiredOK, Bool.and_eq_true] at hr
  exact ⟨hr.1.1, hr.1.2, hr.2⟩

theorem processRecord_missing (sm : SMap) (st : PhotState) (d : Record)
    (hreq : requiredOK d = false) :
    processRecord sm st d = .error .missingFields := by
  unfold processRecord
  rw [hreq]
  rfl

theorem foldl_fails (sm : SMap) : ∀ (ph : List Record),
    (∃ d ∈ ph, requiredOK d = false) →
    ∀ st, ∃ e, ph.foldlM (fun st d => processRecord sm st d) st = .error e := by
  intro ph
  induction ph with
  | nil =>
    intro hbad st
    obtain ⟨d, hd, _⟩ := hbad
    exact absurd hd (List.not_mem_nil d)
  | cons d rest ih =>
    intro hbad st
    obtain ⟨d0, hd0, h0⟩ := hbad
    cases hp : processRecord sm st d with
    | error e => exact ⟨e, by rw [List.foldlM_cons, hp]; rfl⟩
    | ok st1 =>
      have hd0r : d0 ∈ rest := by
        rcases List.mem_cons.1 hd0 with heq | hmem
        · subst heq
          rw [processRecord_missing sm st d0 h0] at hp
          exact Except.noConfusion hp
        · exact hmem
      obtain ⟨e, he⟩ := ih ⟨d0, hd0r, h0⟩ st1
      exact ⟨e, by rw [List.foldlM_cons, hp, except_ok_bind, he]⟩

/-- C9: Photometry construction fails whenever any input record lacks one
of the required keys time, luminosity, source: the per-record check is a
subset test raising the error naming all three, a record lacking
luminosity fails the test, and the whole construction errors whenever some
record fails it. -/
theorem phot_required_subset_check :
    (∀ (sm : SMap) (st : PhotState) (d : Record), requiredOK d = false →
      processRecord sm st d = .error .missingFields) ∧
    (∀ d : Record, hasKey d "luminosity" = false → requiredOK d = false) ∧
    (∀ (sm : SMap) (band : String) (ph : List Record),
      (∃ d ∈ ph, requiredOK d = false) →
      ∃ e, Photometry.init ph band sm = .error e) := by
  refine ⟨processRecord_missing, ?_, ?_⟩
  · intro d hl
    unfold requiredOK
    rw [hl]
    simp
  · intro sm band ph hbad
    obtain ⟨e, he⟩ := foldl_fails sm ph hbad initState
    exact ⟨e, by unfold Photometry.init; rw [he]⟩

/-- Witness for C9 at a concrete record lacking luminosity. -/
theorem phot_required_subset_check_witness :
    Photometry.init [[("time", PyVal.num 1), ("source", PyVal.str "a")]] "r" [("a", srcA)] =
      .error .missingFields ∧
    processRecord [("a", srcA)] initState [("time", PyVal.num 1), ("source", PyVal.str "a")] =
      .error .missingFields :=
  ⟨rfl, phot_required_subset_check.1 [("a", srcA)] initState _ (by rfl)⟩



/-- C2: In each processed record with the required keys, a missing flux
key appends the None placeholder to the luminosity list (after the
luminosity value itself) and leaves the flux list unchanged, while a
present flux value appends its parsed float to the flux list. -/
theorem phot_flux_defect (sm : SMap) (st : PhotState) (d : Record) (st' : PhotState)
    (h : processRecord sm st d = .ok st') :
    (hasKey d "flux" = false →
      st'.flux = st.flux ∧ ∃ q, st'.luminosity = st.luminosity ++ [some q, none]) ∧
    (∀ fv q, dictFind d "flux" = some fv → pyFloat fv = some q →
      st'.flux = st.flux ++ [some q]) := by
  obtain ⟨hr, s1, ht, hrest⟩ := processRecord_decomp sm st d st' h
  obtain ⟨t1, t2, t3, t4, t5, h1, h2, h3, h4, h5, h6⟩ := stepRest_decomp sm s1 d st' hrest
  obtain ⟨hT2, hT3, _⟩ := stepTime_fields st d s1 ht
  obtain ⟨_, hS2, hS3⟩ := stepSource_fields sm s1 d t1 h1
  obtain ⟨_, hL2, hLp, _⟩ := stepLum_fields t1 d t2 h2
  obtain ⟨_, hFp, hFa⟩ := stepFlux_fields t2 d t3 h3
  obtain ⟨_, hM2, hM3⟩ := stepMag_fields t3 d t4 h4
  obtain ⟨_, hW2, hW3⟩ := stepWav_fields t4 d t5 h5
  obtain ⟨_, hU2, hU3⟩ := stepUpper_fields t5 d st' h6
  obtain ⟨vl, hvl⟩ := (hasKey_true_iff d "luminosity").1 (requiredOK_parts d hr).2.1
  obtain ⟨ql, hql, hlum2⟩ := hLp vl hvl
  constructor
  · intro hnf
    obtain ⟨hf3, hlum3⟩ := hFa ((hasKey_false_iff d "flux").1 hnf)
    refine ⟨?_, ql, ?_⟩
    · rw [hU3, hW3, hM3, hf3, hL2, hS3, hT3]
    · rw [hU2, hW2, hM2, hlum3, hlum2, hS2, hT2, List.append_assoc]
      rfl
  · intro fv q hdf hpq
    obtain ⟨q0, hq0, hflux3, _⟩ := hFp fv hdf
    rw [hpq] at hq0
    injection hq0 with hq0
    subst hq0
    rw [hU3, hW3, hM3, hflux3, hL2, hS3, hT3]

/-- Witness for C2 at a concrete record without a flux key. -/
theorem phot_flux_defect_witness :
    (⟨.tlist [1], [some 2, none], [], [none], [none], [.single srcA], [false]⟩ : PhotState).flux
        = initState.flux ∧
    ∃ q, (⟨.tlist [1], [some 2, none], [], [none], [none], [.single srcA], [false]⟩ : PhotState).luminosity
        = initState.luminosity ++ [some q, none] :=
  (phot_flux_defect [("a", srcA)] initState
    [("time", PyVal.num 1), ("luminosity", PyVal.num 2), ("source", PyVal.str "a")]
    ⟨.tlist [1], [some 2, none], [], [none], [none], [.single srcA], [false]⟩ rfl).1 rfl



/-- C3: In each successfully processed record, a list-valued time ASSIGNS
the time field the numpy mean of the parsed values, a scalar, whatever the
field held before; a non-list time value appends its parsed float to the
time list when the field is still a list. -/
theorem phot_time_assign_vs_append (sm : SMap) (st : PhotState) (d : Record) (st' : PhotState)
    (h : processRecord sm st d = .ok st') :
    (∀ l qs, dictFind d "time" = some (.vlist l) → l.mapM pyFloat = some qs → l ≠ [] →
      st'.time = .tscalar (npMean qs)) ∧
    (∀ v q tl, dictFind d "time" = some v → (∀ l, v ≠ .vlist l) → pyFloat v = some q →
      st.time = .tlist tl → st'.time = .tlist (tl ++ [q])) := by
  obtain ⟨hr, s1, ht, hrest⟩ := processRecord_decomp sm st d st' h
  have htime := stepRest_time sm s1 d st' hrest
  constructor
  · intro l qs hd hqs _
    unfold stepTime at ht
    simp only [hd, hqs] at ht
    injection ht with ht
    subst ht
    rw [htime]
  · intro v q tl hd hv hq hst
    unfold stepTime at ht
    rcases v with q' | s' | l' | b' | _
    · simp only [hd, hst] at ht
      injection ht with ht
      subst ht
      injection hq with hq
      subst hq
      rw [htime]
    · exact Option.noConfusion hq
    · exact absurd rfl (hv l')
    · simp only [hd, hst] at ht
      injection ht with ht
      subst ht
      injection hq with hq
      subst hq
      rw [htime]
    · exact Option.noConfusion hq

/-- Witness for C3 at a concrete list-time record. -/
theorem phot_time_assign_vs_append_witness :
    (⟨.tscalar (npMean [1, 2, 3]), [some 7, none], [], [none], [none],
        [.single srcA], [false]⟩ : PhotState).time = .tscalar (npMean [1, 2, 3]) :=
  (phot_time_assign_vs_append [("a", srcA)] initState
    [("time", PyVal.vlist [.num 1, .num 2, .num 3]), ("luminosity", PyVal.num 7),
     ("source", PyVal.str "a")]
    ⟨.tscalar (npMean [1, 2, 3]), [some 7, none], [], [none], [none], [.single srcA], [false]⟩
    rfl).1 [.num 1, .num 2, .num 3] [1, 2, 3] rfl rfl (by simp)



theorem restOK_parts (sm : SMap) (d : Record) (h : restOK sm d = true) :
    requiredOK d = true ∧
    (match dictFind d "source" with
     | some (.str a) => isOkb (aliasToSource a sm)
     | _ => false) = true ∧
    (match dictFind d "luminosity" with
     | some v => (pyFloat v).isSome
     | none => true) = true ∧
    (match dictFind d "flux" with
     | some v => (pyFloat v).isSome
     | none => true) = true ∧
    (match dictFind d "magnitude" with
     | some v => (pyFloat v).isSome
     | none => true) = true := by
  simp only [restOK, Bool.and_eq_true] at h
  exact ⟨h.1.1.1.1, h.1.1.1.2, h.1.1.2, h.1.2, h.2⟩

theorem stepSource_exists (sm : SMap) (d : Record)
    (h : (match dictFind d "source" with
          | some (.str a) => isOkb (aliasToSource a sm)
          | _ => false) = true) :
    ∀ st, ∃ s, stepSource sm st d = .ok s := by
  intro st
  cases hd : dictFind d "source" with
  | none => simp only [hd] at h; exact Bool.noConfusion h
  | some v =>
    cases v with
    | num q' => simp only [hd] at h; exact Bool.noConfusion h
    | str a =>
      simp only [hd] at h
      cases ha : aliasToSource a sm with
      | error e => rw [ha] at h; exact Bool.noConfusion h
      | ok r =>
        exact ⟨{ st with source := st.source ++ [r] }, by unfold stepSource; simp only [hd, ha]⟩
    | vlist l' => simp only [hd] at h; exact Bool.noConfusion h
    | boolean b' => simp only [hd] at h; exact Bool.noConfusion h
    | null => simp only [hd] at h; exact Bool.noConfusion h

theorem stepLum_exists (d : Record)
    (h : (match dictFind d "luminosity" with
          | some v => (pyFloat v).isSome
          | none => true) = true) :
    ∀ st, ∃ s, stepLum st d = .ok s := by
  intro st
  cases hd : dictFind d "luminosity" with
  | none =>
    exact ⟨{ st with luminosity := st.luminosity ++ [none] }, by unfold stepLum; simp only [hd]⟩
  | some v =>
    simp only [hd] at h
    cases hq : pyFloat v with
    | none => rw [hq] at h; exact Bool.noConfusion h
    | some q =>
      exact ⟨{ st with luminosity := st.luminosity ++ [some q] },
        by unfold stepLum; simp only [hd, hq]⟩

theorem stepFlux_exists (d : Record)
    (h : (match dictFind d "flux" with
          | some v => (pyFloat v).isSome
          | none => true) = true) :
    ∀ st, ∃ s, stepFlux st d = .ok s := by
  intro st
  cases hd : dictFind d "flux" with
  | none =>
    exact ⟨{ st with luminosity := st.luminosity ++ [none] }, by unfold stepFlux; simp only [hd]⟩
  | some v =>
    simp only [hd] at h
    cases hq : pyFloat v with
    | none => rw [hq] at h; exact Bool.noConfusion h
    | some q =>
      exact ⟨{ st with flux := st.flux ++ [some q] }, by unfold stepFlux; simp only [hd, hq]⟩

theorem stepMag_exists (d : Record)
    (h : (match dictFind d "magnitude" with
          | some v => (pyFloat v).isSome
          | none => true) = true) :
    ∀ st, ∃ s, stepMag st d = .ok s := by
  intro st
  cases hd : dictFind d "magnitude" with
  | none => exact ⟨{ st with mag := st.mag ++ [none] }, by unfold stepMag; simp only [hd]⟩
  | some v =>
    simp only [hd] at h
    cases hq : pyFloat v with
    | none => rw [hq] at h; exact Bool.noConfusion h
    | some q =>
      exact ⟨{ st with mag := st.mag ++ [some q] }, by unfold stepMag; simp only [hd, hq]⟩

theorem stepWav_exists (d : Record) : ∀ st, ∃ s, stepWav st d = .ok s := by
  intro st
  cases hd : dictFind d "wavelength" with
  | none =>
    exact ⟨{ st with wavelength := st.wavelength ++ [none] }, by unfold stepWav; simp only [hd]⟩
  | some v =>
    exact ⟨{ st with wavelength := st.wavelength ++ [some v] }, by unfold stepWav; simp only [hd]⟩

theorem stepRest_exists (sm : SMap) (d : Record) (h : restOK sm d = true) :
    ∀ st, ∃ s, stepRest sm st d = .ok s := by
  intro st
  obtain ⟨-, hsrc, hlum, hflux, hmag⟩ := restOK_parts sm d h
  obtain ⟨s1, h1⟩ := stepSource_exists sm d hsrc st
  obtain ⟨s2, h2⟩ := stepLum_exists d hlum s1
  obtain ⟨s3, h3⟩ := stepFlux_exists d hflux s2
  obtain ⟨s4, h4⟩ := stepMag_exists d hmag s3
  obtain ⟨s5, h5⟩ := stepWav_exists d s4
  refine ⟨{ s5 with upperlimit := s5.upperlimit ++ [hasKey d "upperlimit"] }, ?_⟩
  unfold stepRest
  rw [h1, except_ok_bind, h2, except_ok_bind, h3, except_ok_bind, h4, except_ok_bind,
      h5, except_ok_bind, stepUpper_ok]

theorem stepTime_list_exists (d : Record) (hl : listTimeOK d = true) :
    ∀ st, ∃ q, stepTime st d = .ok { st with time := .tscalar q } := by
  intro st
  unfold listTimeOK at hl
  cases hd : dictFind d "time" with
  | none => simp only [hd] at hl; exact Bool.noConfusion hl
  | some v =>
    cases v with
    | num q' => simp only [hd] at hl; exact Bool.noConfusion hl
    | str s' => simp only [hd] at hl; exact Bool.noConfusion hl
    | vlist l =>
      simp only [hd] at hl
      cases hm : l.mapM pyFloat with
      | none => rw [hm] at hl; exact Bool.noConfusion hl
      | some qs => exact ⟨npMean qs, by unfold stepTime; simp only [hd, hm]⟩
    | boolean b' => simp only [hd] at hl; exact Bool.noConfusion hl
    | null => simp only [hd] at hl; exact Bool.noConfusion hl

theorem stepTime_scalar_exists (d : Record) (hs : scalarTimeOK d = true) :
    ∀ st tl, st.time = .tlist tl →
      ∃ q, stepTime st d = .ok { st with time := .tlist (tl ++ [q]) } := by
  intro st tl hst
  unfold scalarTimeOK at hs
  cases hd : dictFind d "time" with
  | none => simp only [hd] at hs; exact Bool.noConfusion hs
  | some v =>
    cases v with
    | num q' => exact ⟨q', by unfold stepTime; simp only [hd, hst]; rfl⟩
    | str s' => simp only [hd] at hs; exact Bool.noConfusion hs
    | vlist l => simp only [hd] at hs; exact Bool.noConfusion hs
    | boolean b' =>
      exact ⟨if b' then 1 else 0, by unfold stepTime; simp only [hd, hst]; rfl⟩
    | null => simp only [hd] at hs; exact Bool.noConfusion hs



theorem processRecord_list_exists (sm : SMap) (d : Record)
    (hrest : restOK sm d = true) (hl : listTimeOK d = true) :
    ∀ st, ∃ st', processRecord sm st d = .ok st' := by
  intro st
  have hreq := (restOK_parts sm d hrest).1
  obtain ⟨q, ht⟩ := stepTime_list_exists d hl st
  obtain ⟨s, hs⟩ := stepRest_exists sm d hrest { st with time := .tscalar q }
  refine ⟨s, ?_⟩
  unfold processRecord
  rw [hreq, ht, except_ok_bind, hs]
  rfl

theorem processRecord_scalar_exists (sm : SMap) (d : Record)
    (hrest : restOK sm d = true) (hsc : scalarTimeOK d = true) :
    ∀ st tl, st.time = .tlist tl →
      ∃ st' tl', processRecord sm st d = .ok st' ∧ st'.time = .tlist tl' := by
  intro st tl hst
  have hreq := (restOK_parts sm d hrest).1
  obtain ⟨q, ht⟩ := stepTime_scalar_exists d hsc st tl hst
  obtain ⟨s, hs⟩ := stepRest_exists sm d hrest { st with time := .tlist (tl ++ [q]) }
  refine ⟨s, tl ++ [q], ?_, ?_⟩
  · unfold processRecord
    rw [hreq, ht, except_ok_bind, hs]
    rfl
  · rw [stepRest_time sm _ d s hs]

theorem foldlM_scalar_phase (sm : SMap) : ∀ (ph : List Record),
    (∀ d ∈ ph, scalarTimeOK d = true ∧ restOK sm d = true) →
    ∀ st tl, st.time = .tlist tl →
      ∃ st' tl', ph.foldlM (fun st d => processRecord sm st d) st = .ok st' ∧
        st'.time = .tlist tl' := by
  intro ph
  induction ph with
  | nil => exact fun _ st tl hst => ⟨st, tl, rfl, hst⟩
  | cons d rest ih =>
    intro hok st tl hst
    obtain ⟨hsc, hrest⟩ := hok d (List.mem_cons_self d rest)
    obtain ⟨st1, tl1, hp, ht1⟩ := processRecord_scalar_exists sm d hrest hsc st tl hst
    obtain ⟨st2, tl2, hf, ht2⟩ :=
      ih (fun e he => hok e (List.mem_cons_of_mem d he)) st1 tl1 ht1
    exact ⟨st2, tl2, by rw [List.foldlM_cons, hp, except_ok_bind, hf], ht2⟩

theorem foldlM_list_phase (sm : SMap) : ∀ (ph : List Record),
    (∀ d ∈ ph, listTimeOK d = true ∧ restOK sm d = true) →
    ∀ st, ∃ st', ph.foldlM (fun st d => processRecord sm st d) st = .ok st' := by
  intro ph
  induction ph with
  | nil => exact fun _ st => ⟨st, rfl⟩
  | cons d rest ih =>
    intro hok st
    obtain ⟨hl, hrest⟩ := hok d (List.mem_cons_self d rest)
    obtain ⟨st1, hp⟩ := processRecord_list_exists sm d hrest hl st
    obtain ⟨st2, hf⟩ := ih (fun e he => hok e (List.mem_cons_of_mem d he)) st1
    exact ⟨st2, by rw [List.foldlM_cons, hp, except_ok_bind, hf]⟩

theorem foldlM_append_except (f : PhotState → Record → Except PyErr PhotState)
    (l1 l2 : List Record) : ∀ st,
    (l1 ++ l2).foldlM f st = l1.foldlM f st >>= fun st1 => l2.foldlM f st1 := by
  induction l1 with
  | nil => intro st; rfl
  | cons d rest ih =>
    intro st
    simp only [List.cons_append, List.foldlM_cons]
    cases f st d with
    | error e => rfl
    | ok st1 => simp only [except_ok_bind]; exact ih st1

/-- C1 counterexample: a two-record photometry list in which every record
has the required keys with numeric values and a resolvable source alias,
the first giving time as a list of three numbers and the second as a
scalar; construction fails (the list case overwrote the time field with a
scalar, so the scalar append is an AttributeError), refuting the claim
that such collections construct in any order. -/
theorem phot_mixed_time_counterexample :
    Photometry.init
      [[("time", PyVal.vlist [.num 1, .num 2, .num 3]), ("luminosity", .num 1),
        ("source", .str "a")],
       [("time", PyVal.num 5), ("luminosity", .num 2), ("source", .str "a")]]
      "r" [("a", srcA)] = .error .attributeError := rfl

/-- C1 amended: such collections construct without failing provided every
scalar-time record precedes every list-time record; both representations
can then appear in the same collection. -/
theorem phot_mixed_time_amended (sm : SMap) (band : String) (ph1 ph2 : List Record)
    (h1 : ∀ d ∈ ph1, scalarTimeOK d = true ∧ restOK sm d = true)
    (h2 : ∀ d ∈ ph2, listTimeOK d = true ∧ restOK sm d = true) :
    ∃ obj, Photometry.init (ph1 ++ ph2) band sm = .ok obj := by
  obtain ⟨st1, tl1, hf1, _⟩ := foldlM_scalar_phase sm ph1 h1 initState [] rfl
  obtain ⟨st2, hf2⟩ := foldlM_list_phase sm ph2 h2 st1
  refine ⟨⟨band, st2, (ph1 ++ ph2).map cleanRecord⟩, ?_⟩
  unfold Photometry.init
  rw [foldlM_append_except, hf1, except_ok_bind, hf2]

/-- Witness for the amended C1 at a concrete scalar-then-list pair. -/
theorem phot_mixed_time_amended_witness :
    ∃ obj, Photometry.init
      ([[("time", PyVal.num 5), ("luminosity", .num 2), ("source", .str "a")]] ++
       [[("time", PyVal.vlist [.num 1, .num 2, .num 3]), ("luminosity", .num 1),
         ("source", .str "a")]])
      "r" [("a", srcA)] = .ok obj :=
  phot_mixed_time_amended [("a", srcA)] "r"
    [[("time", PyVal.num 5), ("luminosity", .num 2), ("source", .str "a")]]
    [[("time", PyVal.vlist [.num 1, .num 2, .num 3]), ("luminosity", .num 1),
      ("source", .str "a")]]
    (by decide) (by decide)

end Otter
